import Mathlib

/-!
Verification of the policy layer of the `tick` timestamp utility
(src/main.rs): the time-source resolution performed at the top of `tick`,
and the flag/category dispatch that decides which of the two
timestamp attributes of the target file to overwrite.

The embedding is parametric in the instant type `τ` (`SystemTime` in Rust),
and abstracts the external collaborators as functions: `parse` stands for
`dateparser::parse` (the single parser the code applies to both `-d` and
`-t` strings) and `meta` stands for `fs::metadata` together with the
fallible `accessed()` / `modified()` queries on its result.  Filesystem
writes are recorded as an ordered list of `Act` values, one per
`File::set_times` call carrying a timestamp.
-/

/-- Filesystem path, abstracted as a string. -/
abbrev FsPath : Type := String

/-- The `Source` enum of main.rs (lines 125-128): one instant, or an
access/modification pair read from a reference file. -/
inductive Source (τ : Type) where
  | Single (t : τ)
  | Multi (a m : τ)
deriving DecidableEq, Repr

/-- The `Word` enum of main.rs (lines 11-17) naming which timestamp family
a `--time` argument selects. -/
inductive Word where
  | Access
  | Atime
  | Use
  | Modify
  | Mtime
deriving DecidableEq, Repr

/-- The Rust `String::to_lowercase`, modelled character-wise; it agrees with
it on every string whose lowering is compared against the ASCII keywords of
the `Word` match. -/
def lowerString (s : String) : String :=
  String.mk (s.data.map Char.toLower)

/-- The `impl From<String> for Word` of main.rs (lines 19-30):
case-insensitive match on the lowered string, every unrecognized string
falling back to `Word::Use`. -/
def Word.fromString (word : String) : Word :=
  match lowerString word with
  | "access" => Word.Access
  | "atime" => Word.Atime
  | "use" => Word.Use
  | "modify" => Word.Modify
  | "mtime" => Word.Mtime
  | _ => Word.Use

/-- Classification of a `Word` into the access or the modify attribute
family (which of the two setters `on_time` dispatches it to). -/
inductive WordClass where
  | accessClass
  | modifyClass
deriving DecidableEq, Repr

/-- Which setter `on_time` (main.rs 186-195) runs for each `Word`. -/
def Word.kind : Word → WordClass
  | Word.Access => WordClass.accessClass
  | Word.Atime => WordClass.accessClass
  | Word.Use => WordClass.accessClass
  | Word.Modify => WordClass.modifyClass
  | Word.Mtime => WordClass.modifyClass

/-- One timestamp write committed through `File::set_times`. -/
inductive Act (τ : Type) where
  | setAccess (t : τ)
  | setModify (t : τ)
deriving DecidableEq, Repr

/-- `set_access` of main.rs (lines 107-114): extracts the instant from the
source (`Single(t)` gives `t`, `Multi(t, _)` gives the first component) and
writes it to the access attribute. -/
def set_access {τ : Type} (time : Source τ) : Act τ :=
  Act.setAccess (match time with
    | Source.Single t => t
    | Source.Multi t _ => t)

/-- `set_modified` of main.rs (lines 116-123): extracts the instant from
the source (`Single(t)` gives `t`, `Multi(_, t)` gives the second
component) and writes it to the modification attribute. -/
def set_modified {τ : Type} (time : Source τ) : Act τ :=
  Act.setModify (match time with
    | Source.Single t => t
    | Source.Multi _ t => t)

/-- `on_time` of main.rs (lines 186-195): classify the word and issue the
corresponding single write. -/
def on_time {τ : Type} (word : String) (src : Source τ) : List (Act τ) :=
  match Word.fromString word with
  | Word.Use => [set_access src]
  | Word.Access => [set_access src]
  | Word.Atime => [set_access src]
  | Word.Modify => [set_modified src]
  | Word.Mtime => [set_modified src]

/-- The flag-dispatch match of `tick` (main.rs 161-179), recorded as the
ordered list of timestamp writes it issues.  The rows appear in source
order; as in Rust, the first matching row wins. -/
def tickActions {τ : Type} (access modify_time_only : Bool)
    (word : Option String) (src : Source τ) : List (Act τ) :=
  match access, modify_time_only, word with
  | true, true, _ => [set_access src, set_modified src]
  | true, false, none => [set_access src]
  | _, false, some w => on_time w src
  | false, true, none => [set_modified src]
  | false, true, some w => set_modified src :: on_time w src
  | false, false, none => [set_modified src, set_access src]

/-- The two timestamp attributes of the target file. -/
structure FileStamps (τ : Type) where
  access : τ
  modify : τ
deriving DecidableEq, Repr

/-- Effect of one committed write on the timestamp attributes of the target:
each `FileTimes` value in the code carries exactly one attribute, so each
write leaves the other attribute untouched. -/
def applyAct {τ : Type} (ft : FileStamps τ) : Act τ → FileStamps τ
  | Act.setAccess t => { ft with access := t }
  | Act.setModify t => { ft with modify := t }

/-- Effect of a list of writes, committed in order. -/
def applyActions {τ : Type} (ft : FileStamps τ) (acts : List (Act τ)) :
    FileStamps τ :=
  acts.foldl applyAct ft

/-- The instant the code writes to the access attribute for a given source
(`pick(source, access)` in the specification). -/
def accessPick {τ : Type} : Source τ → τ
  | Source.Single t => t
  | Source.Multi a _ => a

/-- The instant the code writes to the modification attribute for a given
source (`pick(source, modify)` in the specification). -/
def modifyPick {τ : Type} : Source τ → τ
  | Source.Single t => t
  | Source.Multi _ m => m

/-- Result of `fs::metadata` on the reference path: the `accessed()` and
`modified()` queries on the returned metadata may each fail. -/
structure Metadata (τ : Type) where
  accessed : Option τ
  modified : Option τ
deriving DecidableEq, Repr

/-- Failures of the time-source match of `tick` (main.rs 134-158),
named as in the specification. -/
inductive ResolveError where
  | invalidDateString (s : String)
  | invalidTimeString (s : String)
  | referenceUnreadable (p : FsPath)
  | conflictingTimeSource
deriving DecidableEq, Repr

/-- The time-source match of `tick` (main.rs 134-158).  `parse` stands for
`dateparser::parse`; the code applies this one parser to both the `-d`
date string (line 136) and the `-t` time string (line 142).  `meta` stands
for `fs::metadata` plus the two time queries on its result; `now` is
`SystemTime::now()`.  Any combination with two or more sources present
falls to the final arm, which bails. -/
def resolve {τ : Type} (parse : String → Option τ)
    (meta : FsPath → Option (Metadata τ)) (date time : Option String)
    (ref : Option FsPath) (now : τ) : Except ResolveError (Source τ) :=
  match date, time, ref with
  | some d, none, none =>
      match parse d with
      | some i => Except.ok (Source.Single i)
      | none => Except.error (ResolveError.invalidDateString d)
  | none, some t, none =>
      match parse t with
      | some i => Except.ok (Source.Single i)
      | none => Except.error (ResolveError.invalidTimeString t)
  | none, none, some r =>
      match meta r with
      | none => Except.error (ResolveError.referenceUnreadable r)
      | some md =>
          match md.accessed with
          | none => Except.error (ResolveError.referenceUnreadable r)
          | some a =>
              match md.modified with
              | none => Except.error (ResolveError.referenceUnreadable r)
              | some m => Except.ok (Source.Multi a m)
  | none, none, none => Except.ok (Source.Single now)
  | _, _, _ => Except.error ResolveError.conflictingTimeSource

/-- Failures of `tick` as a whole: the target could not be opened
(line 131-132), or the time-source match failed. -/
inductive TickError where
  | targetUnopenable (p : FsPath)
  | resolveFailed (e : ResolveError)
deriving DecidableEq, Repr

/-- `tick` of main.rs (lines 130-184): open the target, resolve the time
source, then commit the writes chosen by the flag dispatch.  `openOk`
abstracts whether `File::open` succeeds on the target.  The trailing
`set_times(FileTimes::new())` at line 181 carries no timestamps and so
changes neither attribute.  The pair returned is the outcome together with
the timestamp attributes of the target after the call. -/
def tickRun {τ : Type} (parse : String → Option τ)
    (meta : FsPath → Option (Metadata τ)) (filePath : FsPath) (openOk : Bool)
    (date time : Option String) (ref : Option FsPath) (now : τ)
    (access modify_time_only : Bool) (word : Option String)
    (ft : FileStamps τ) : Except TickError Unit × FileStamps τ :=
  if openOk then
    match resolve parse meta date time ref now with
    | Except.error e => (Except.error (TickError.resolveFailed e), ft)
    | Except.ok src =>
        (Except.ok (),
          applyActions ft (tickActions access modify_time_only word src))
  else (Except.error (TickError.targetUnopenable filePath), ft)

/-- Helper: `on_time` issues exactly one write, chosen by the class of the
normalized word. -/
theorem on_time_kind {τ : Type} (w : String) (src : Source τ) :
    on_time w src =
      (match Word.kind (Word.fromString w) with
        | WordClass.accessClass => [set_access src]
        | WordClass.modifyClass => [set_modified src]) := by
  cases h : Word.fromString w <;> simp [on_time, h, Word.kind]

/-- C1: in the code there is no separate compact `[[CC]YY]MMDDhhmm[.ss]`
grammar for the `-t` string: the time branch of `resolve` applies the very
same parser as the date branch — for every parser and every string, the two
branches accept and reject together, differing only in the error tag.  This
contradicts the claim that `-t` is parsed by a grammar distinct from and
stricter than the `-d` parser, although the help text of `-t` in main.rs
(lines 62-66) announces exactly such a distinct format. -/
theorem resolve_time_same_parser_as_date {τ : Type} (parse : String → Option τ)
    (meta : FsPath → Option (Metadata τ)) (s : String) (now : τ) :
    resolve parse meta none (some s) none now =
      (match parse s with
        | some i => Except.ok (Source.Single i)
        | none => Except.error (ResolveError.invalidTimeString s)) ∧
    resolve parse meta (some s) none none now =
      (match parse s with
        | some i => Except.ok (Source.Single i)
        | none => Except.error (ResolveError.invalidDateString s)) :=
  ⟨rfl, rfl⟩

/-- C2: whenever two or more of the date string, the compact time string
and the reference path are supplied at once, `resolve` fails with
`ConflictingTimeSource`; no source is ever chosen silently by precedence. -/
theorem resolve_conflicting_sources {τ : Type} (parse : String → Option τ)
    (meta : FsPath → Option (Metadata τ)) (date time : Option String)
    (ref : Option FsPath) (now : τ)
    (h : (date.isSome ∧ time.isSome) ∨ (date.isSome ∧ ref.isSome) ∨
         (time.isSome ∧ ref.isSome)) :
    resolve parse meta date time ref now =
      Except.error ResolveError.conflictingTimeSource := by
  cases date <;> cases time <;> cases ref <;> simp_all [resolve]

/-- Witness for C2: a concrete invocation supplying both a date string and
a compact time string fails with `ConflictingTimeSource`. -/
theorem resolve_conflicting_sources_witness :
    resolve (τ := Nat) (fun _ => none) (fun _ => none)
      (some "2024-01-01") (some "202401011200") none 0 =
      Except.error ResolveError.conflictingTimeSource :=
  resolve_conflicting_sources _ _ _ _ _ _ (Or.inl ⟨rfl, rfl⟩)

/-- C3: with `modifyOnly` false and a named category present (whatever the
access flag), the dispatch runs exactly `on_time`: an access-class word
sets only the access attribute and a modify-class word sets only the
modification attribute; in particular category "mtime" on a single instant
`T` sets modify to `T` and leaves access untouched. -/
theorem tick_category_row {τ : Type} (acc : Bool) (w : String)
    (src : Source τ) (ft : FileStamps τ) (T : τ) :
    tickActions acc false (some w) src = on_time w src ∧
    applyActions ft (on_time w src) =
      (match Word.kind (Word.fromString w) with
        | WordClass.accessClass => { ft with access := accessPick src }
        | WordClass.modifyClass => { ft with modify := modifyPick src }) ∧
    applyActions ft (tickActions false false (some "mtime") (Source.Single T)) =
      { ft with modify := T } := by
  refine ⟨by cases acc <;> rfl, ?_, rfl⟩
  rw [on_time_kind]
  cases h : Word.fromString w <;> cases src <;>
    simp [Word.kind, applyActions, applyAct, set_access, set_modified,
      accessPick, modifyPick]

/-- C4: with `-m` set, access unset and a category word present, the
dispatch issues the modify write and then the category-driven write, so an
access-class word leaves both attributes set from the source picks, while
a modify-class word makes the dispatch write the modification attribute by
both actions (the action list is the modify write twice). -/
theorem tick_modify_and_category_row {τ : Type} (w : String)
    (src : Source τ) (ft : FileStamps τ) :
    tickActions false true (some w) src = set_modified src :: on_time w src ∧
    on_time w src =
      (match Word.kind (Word.fromString w) with
        | WordClass.accessClass => [set_access src]
        | WordClass.modifyClass => [set_modified src]) ∧
    applyActions ft (tickActions false true (some w) src) =
      (match Word.kind (Word.fromString w) with
        | WordClass.accessClass =>
            { access := accessPick src, modify := modifyPick src }
        | WordClass.modifyClass => { ft with modify := modifyPick src }) := by
  refine ⟨rfl, on_time_kind w src, ?_⟩
  have h1 : tickActions false true (some w) src =
      set_modified src :: on_time w src := rfl
  rw [h1, on_time_kind]
  cases h : Word.fromString w <;> cases src <;>
    simp [Word.kind, applyActions, applyAct, set_access, set_modified,
      accessPick, modifyPick]

/-- C5: with both `-a` and `-m` the first row of the dispatch wins for
every category word (present or absent) and every source: both attributes
are written, access from `pick(source, access)` and modify from
`pick(source, modify)`. -/
theorem tick_both_flags_row {τ : Type} (word : Option String)
    (src : Source τ) (ft : FileStamps τ) :
    tickActions true true word src = [set_access src, set_modified src] ∧
    applyActions ft (tickActions true true word src) =
      { access := accessPick src, modify := modifyPick src } := by
  refine ⟨rfl, ?_⟩
  cases src <;> rfl

/-- C6: with no flags and no category, a pair source writes its two
components independently: access receives the first component of the pair
and modify the second. -/
theorem tick_default_pair_independent {τ : Type} (A M : τ)
    (ft : FileStamps τ) :
    applyActions ft (tickActions false false none (Source.Multi A M)) =
      { access := A, modify := M } ∧
    accessPick (Source.Multi A M) = A ∧ modifyPick (Source.Multi A M) = M :=
  ⟨rfl, rfl, rfl⟩

/-- C7: word normalization is case-insensitive on the lowered string and
maps "modify" and "mtime" to the modify class and every other string —
"access", "atime", "use" and any unrecognized word alike — to the access
class; in particular "bogus" behaves exactly like "use" and "access" in
every dispatch. -/
theorem word_classification (w : String) {τ : Type} (src : Source τ) :
    Word.kind (Word.fromString w) =
      (if lowerString w = "modify" ∨ lowerString w = "mtime" then
        WordClass.modifyClass
       else WordClass.accessClass) ∧
    on_time w src =
      (if lowerString w = "modify" ∨ lowerString w = "mtime" then
        [set_modified src]
       else [set_access src]) ∧
    Word.fromString "bogus" = Word.Use ∧
    Word.fromString "MoDiFy" = Word.Modify ∧
    on_time "bogus" src = on_time "use" src ∧
    on_time "bogus" src = on_time "access" src := by
  have hk : Word.kind (Word.fromString w) =
      (if lowerString w = "modify" ∨ lowerString w = "mtime" then
        WordClass.modifyClass
       else WordClass.accessClass) := by
    unfold Word.fromString
    generalize lowerString w = l
    split <;> simp_all [Word.kind]
  refine ⟨hk, ?_, by decide, by decide, rfl, rfl⟩
  rw [on_time_kind, hk]
  by_cases hc : lowerString w = "modify" ∨ lowerString w = "mtime" <;>
    simp [hc]

/-- C8: with only the reference path supplied, `resolve` reads its
metadata and produces the pair of its access and modification times,
extracted independently; if the metadata read fails, or either time query
on it fails, it fails with `ReferenceUnreadable`. -/
theorem resolve_reference_pair {τ : Type} (parse : String → Option τ)
    (meta : FsPath → Option (Metadata τ)) (r : FsPath) (now : τ) :
    (∀ md a m, meta r = some md → md.accessed = some a →
      md.modified = some m →
      resolve parse meta none none (some r) now =
        Except.ok (Source.Multi a m)) ∧
    (meta r = none →
      resolve parse meta none none (some r) now =
        Except.error (ResolveError.referenceUnreadable r)) ∧
    (∀ md, meta r = some md → (md.accessed = none ∨ md.modified = none) →
      resolve parse meta none none (some r) now =
        Except.error (ResolveError.referenceUnreadable r)) := by
  refine ⟨?_, ?_, ?_⟩
  · intro md a m h1 h2 h3
    simp [resolve, h1, h2, h3]
  · intro h1
    simp [resolve, h1]
  · intro md h1 h2
    rcases h2 with h2 | h2 <;> simp [resolve, h1, h2]
    cases hm : md.accessed <;> simp

/-- Witness for C8: against a filesystem mapping every path to metadata
with access time 11 and modification time 22, resolving from a reference
path yields the pair (11, 22). -/
theorem resolve_reference_pair_witness :
    resolve (τ := Nat) (fun _ => none) (fun _ => some ⟨some 11, some 22⟩)
      none none (some "ref") 0 = Except.ok (Source.Multi 11 22) :=
  (resolve_reference_pair (fun _ => none) (fun _ => some ⟨some 11, some 22⟩)
      "ref" 0).1 ⟨some 11, some 22⟩ 11 22 rfl rfl rfl

/-- C9: the flag dispatch never produces an empty instruction — for every
source and every combination of the three selection inputs it issues at
least one timestamp write. -/
theorem tick_instruction_nonempty {τ : Type} (access modify_time_only : Bool)
    (word : Option String) (src : Source τ) :
    0 < (tickActions access modify_time_only word src).length := by
  have hlen : ∀ w : String, (on_time w src).length = 1 := by
    intro w
    rw [on_time_kind]
    cases Word.kind (Word.fromString w) <;> rfl
  cases access <;> cases modify_time_only <;> cases word <;>
    simp [tickActions, hlen]

/-- C10: whenever `tick` returns an error — unopenable target, conflicting
sources, failed date or time parse, or unreadable reference — the
timestamp attributes of the target are exactly as before the call:
resolution completes before any write is issued. -/
theorem tick_error_leaves_stamps {τ : Type} (parse : String → Option τ)
    (meta : FsPath → Option (Metadata τ)) (filePath : FsPath)
    (openOk : Bool) (date time : Option String) (ref : Option FsPath)
    (now : τ) (access modify_time_only : Bool) (word : Option String)
    (ft : FileStamps τ) (e : TickError)
    (h : (tickRun parse meta filePath openOk date time ref now access
            modify_time_only word ft).1 = Except.error e) :
    (tickRun parse meta filePath openOk date time ref now access
        modify_time_only word ft).2 = ft := by
  unfold tickRun at h ⊢
  cases openOk
  · rfl
  · simp only [if_true] at h ⊢
    cases hres : resolve parse meta date time ref now <;> simp [hres] at h ⊢

/-- Witness for C10: a concrete call on an unopenable target errs and
leaves the timestamp attributes (3, 4) unchanged. -/
theorem tick_error_leaves_stamps_witness :
    (tickRun (τ := Nat) (fun _ => none) (fun _ => none) "target" false
        none none none 0 false false none ⟨3, 4⟩).2 = ⟨3, 4⟩ :=
  tick_error_leaves_stamps (fun _ => none) (fun _ => none) "target" false
    none none none 0 false false none ⟨3, 4⟩
    (TickError.targetUnopenable "target") rfl
